import Mathlib

/-!
Verification of the `saleor-gql-loader` repository: a shallow embedding of
the non-trivial logic of `saleor_gql_loader/utils.py` (error extraction,
shallow dict override, transport error surfacing, multipart payload
building) and of the cursor-pagination loops of
`saleor_gql_loader/data_loader.py` (`fetch_warehouses`,
`fetch_product_categories`, and representative wrapper methods), together
with theorems settling the specification's claims about them.

Python dicts are modelled as association lists with string keys (JSON
responses only ever carry string keys); Python exceptions are modelled with
`Except PyExc`; Python truthiness is modelled by `truthy`.
-/

namespace SaleorGqlLoader

/-- A Python/JSON value as it appears in parsed GraphQL responses and in the
keyword-argument dictionaries the library manipulates. -/
inductive PyVal : Type where
  | none : PyVal
  | bool : Bool → PyVal
  | int : Int → PyVal
  | str : String → PyVal
  | list : List PyVal → PyVal
  | dict : List (String × PyVal) → PyVal

/-- The Python exceptions the embedded code can raise. -/
inductive PyExc : Type where
  | exc : String → PyExc
  | keyError : String → PyExc
  | indexError : PyExc
  | typeError : PyExc
deriving DecidableEq

/-- Python truthiness of a value (`bool(v)`). -/
def truthy : PyVal → Bool
  | .none => false
  | .bool b => b
  | .int n => n != 0
  | .str s => s != ""
  | .list xs => !xs.isEmpty
  | .dict kvs => !kvs.isEmpty

/-- First binding of `key` in an association list (Python dicts hold each
key once, so first = only). -/
def lookupKey : List (String × PyVal) → String → Option PyVal
  | [], _ => Option.none
  | (k, v) :: rest, key => if k == key then some v else lookupKey rest key

/-- `v == needle` for a string `needle`: in Python a string compares equal
only to an equal string, and unequal (without raising) to any other type. -/
def pyEqStr (needle : String) : PyVal → Bool
  | .str s => s == needle
  | _ => false

/-- `isPrefixChars n h` is true when `n` is a prefix of `h`. -/
def isPrefixChars : List Char → List Char → Bool
  | [], _ => true
  | _ :: _, [] => false
  | a :: as, b :: bs => a == b && isPrefixChars as bs

/-- `isInfixChars n h` is true when `n` occurs contiguously inside `h`
(Python substring containment). -/
def isInfixChars (n : List Char) : List Char → Bool
  | [] => isPrefixChars n []
  | b :: bs => isPrefixChars n (b :: bs) || isInfixChars n bs

/-- Python `needle in hay` for a string needle: key membership for dicts,
element membership for lists, substring test for strings, `TypeError`
otherwise. -/
def pyIn (needle : String) : PyVal → Except PyExc Bool
  | .dict kvs => .ok (kvs.any (fun p => p.1 == needle))
  | .list xs => .ok (xs.any (pyEqStr needle))
  | .str s => .ok (isInfixChars needle.toList s.toList)
  | _ => .error .typeError

/-- Python `hay[key]` for a string key: dict lookup (raising `KeyError`
when absent), `TypeError` on every other container or scalar. -/
def pyGet (hay : PyVal) (key : String) : Except PyExc PyVal :=
  match hay with
  | .dict kvs =>
    match lookupKey kvs key with
    | some v => .ok v
    | Option.none => .error (.keyError key)
  | _ => .error .typeError

/-- Python `hay[0]`: first element of a list (raising `IndexError` when
empty), first character of a string, `KeyError` on a dict (no integer key),
`TypeError` otherwise. -/
def pyIndex0 : PyVal → Except PyExc PyVal
  | .list [] => .error .indexError
  | .list (x :: _) => .ok x
  | .str s =>
    match s.toList with
    | [] => .error .indexError
    | c :: _ => .ok (.str c.toString)
  | .dict _ => .error (.keyError "0")
  | _ => .error .typeError

/-- Python iteration `for x in v`: elements of a list, keys of a dict,
characters of a string, `TypeError` otherwise. -/
def iterElems : PyVal → Except PyExc (List PyVal)
  | .list xs => .ok xs
  | .dict kvs => .ok (kvs.map (fun p => .str p.1))
  | .str s => .ok (s.toList.map (fun c => .str c.toString))
  | _ => .error .typeError

mutual
/-- Python `repr(v)` (strings quoted; containers recursively). -/
def pyRepr : PyVal → String
  | .none => "None"
  | .bool b => if b then "True" else "False"
  | .int n => toString n
  | .str s => "\x27" ++ s ++ "\x27"
  | .list xs => "[" ++ String.intercalate ", " (pyReprList xs) ++ "]"
  | .dict kvs => "\x7b" ++ String.intercalate ", " (pyReprDict kvs) ++ "\x7d"

/-- `repr` of each element of a list of values. -/
def pyReprList : List PyVal → List String
  | [] => []
  | x :: xs => pyRepr x :: pyReprList xs

/-- `repr` of each `key: value` entry of a dict. -/
def pyReprDict : List (String × PyVal) → List String
  | [] => []
  | (k, v) :: rest => ("\x27" ++ k ++ "\x27: " ++ pyRepr v) :: pyReprDict rest
end

/-- Python `str(v)` (used by `str.format` placeholders): the string itself
for strings, `repr`-style rendering for everything else. -/
def pyStr : PyVal → String
  | .str s => s
  | v => pyRepr v

/-- `"{field} : {message}".format(**error)`: `error` must be a mapping
(`TypeError` otherwise) and must carry both keys (`KeyError` otherwise,
`field` being looked up first as it appears first in the format string). -/
def formatFieldMessage (e : PyVal) : Except PyExc String :=
  match e with
  | .dict kvs =>
    match lookupKey kvs "field" with
    | Option.none => .error (.keyError "field")
    | some f =>
      match lookupKey kvs "message" with
      | Option.none => .error (.keyError "message")
      | some m => .ok (pyStr f ++ " : " ++ pyStr m)
  | _ => .error .typeError

/-- The list comprehension of `handle_errors`'s first stage:
`["{field} : {message}".format(**error) for error in target if 'field' in error]`. -/
def formatLines : List PyVal → Except PyExc (List String)
  | [] => .ok []
  | e :: rest => do
    let hasF ← pyIn "field" e
    if hasF then do
      let line ← formatFieldMessage e
      let restLines ← formatLines rest
      .ok (line :: restLines)
    else
      formatLines rest

/-- The list comprehension of `handle_errors`'s fallback stage:
`[error['message'] for error in response['errors'] if 'message' in error]`.
The collected values are raw (not stringified). -/
def collectMessages : List PyVal → Except PyExc (List PyVal)
  | [] => .ok []
  | e :: rest => do
    let hasM ← pyIn "message" e
    if hasM then do
      let m ← pyGet e "message"
      let ms ← collectMessages rest
      .ok (m :: ms)
    else
      collectMessages rest

/-- The `for field in errors_path` walk of `handle_errors`: descend while
the key is present and its value truthy; `Option.none` means the walk was
abandoned (`errors_path_found = False`). -/
def walkPath (v : PyVal) : List String → Except PyExc (Option PyVal)
  | [] => .ok (some v)
  | f :: rest => do
    let b ← pyIn f v
    if b then do
      let v2 ← pyGet v f
      if truthy v2 then walkPath v2 rest else .ok Option.none
    else
      .ok Option.none

/-- Casts every element to a string, or fails on the first non-string. -/
def allStrs : List PyVal → Option (List String)
  | [] => some []
  | .str s :: rest => (allStrs rest).map (fun ss => s :: ss)
  | _ => Option.none

/-- Python `"\n".join(xs)`: `TypeError` as soon as a non-string is met. -/
def joinNewline (xs : List PyVal) : Except PyExc String :=
  match allStrs xs with
  | some ss => .ok (String.intercalate "\n" ss)
  | Option.none => .error .typeError

/-- The comprehension applied to a resolved walk target (`Option.none`
standing for an abandoned walk, which contributes no line). -/
def formatTarget : Option PyVal → Except PyExc (List PyVal)
  | Option.none => .ok []
  | some target =>
    (iterElems target).bind (fun elems =>
      (formatLines elems).bind (fun lines => .ok (lines.map PyVal.str)))

/-- The first stage of `utils.handle_errors`: when `errors_path` is truthy
(neither `None` nor the empty tuple), walk it and build the formatted
`"{field} : {message}"` lines; the empty list stands for Python's
`txt_list` being `None` or `[]` (both falsy, both triggering the
fallback). -/
def pathStage (response : PyVal) : Option (List String) → Except PyExc (List PyVal)
  | Option.none => .ok []
  | some path =>
    if path.isEmpty then .ok []
    else (walkPath response path).bind formatTarget

/-- The fallback stage of `utils.handle_errors`:
`'errors' in response and response['errors']`, collecting each entry's raw
`message`. -/
def fallbackStage (response : PyVal) : Except PyExc (List PyVal) :=
  (pyIn "errors" response).bind (fun hasErrs =>
    if hasErrs then
      (pyGet response "errors").bind (fun errsVal =>
        if truthy errsVal then (iterElems errsVal).bind collectMessages
        else .ok [])
    else .ok [])

/-- The final `if txt_list: raise Exception("\n".join(txt_list))` step. -/
def finalize (txt2 : List PyVal) : Except PyExc Unit :=
  if txt2.isEmpty then .ok ()
  else (joinNewline txt2).bind (fun msg => .error (.exc msg))

/-- `utils.handle_errors(response, errors_path)`: probe the request-specific
`errors_path` for a list of errors carrying a `field` key; when that stage
yields no text, fall back to the top-level `errors` list's `message`s; raise
`Exception` with the newline-joined text when any was collected. An
`errors_path` of `Option.none` (Python `None`) or `some []` (empty tuple) is
falsy and skips the first stage. -/
def handle_errors (response : PyVal)
    (errors_path : Option (List String) := Option.none) : Except PyExc Unit :=
  (pathStage response errors_path).bind (fun txt1 =>
    (if txt1.isEmpty then fallbackStage response else .ok txt1).bind finalize)

/-- `utils.graphql_request`, after the HTTP POST and `json.loads` have
produced `parsed` with HTTP status `status`: on a non-200 status, raise
`Exception("{message}\n extensions: {extensions}".format(**parsed["errors"][0]))`
(the subscripts and the format lookups raise `KeyError`/`IndexError`/
`TypeError` on their own when the body has another shape); on a 200 status,
return the parsed envelope verbatim. `transportError` computes which
exception the non-200 branch raises. -/
def transportError (parsed : PyVal) : PyExc :=
  match pyGet parsed "errors" with
  | .error e => e
  | .ok errs =>
    match pyIndex0 errs with
    | .error e => e
    | .ok e0 =>
      match e0 with
      | .dict kvs =>
        match lookupKey kvs "message" with
        | Option.none => .keyError "message"
        | some m =>
          match lookupKey kvs "extensions" with
          | Option.none => .keyError "extensions"
          | some ext => .exc (pyStr m ++ "\n extensions: " ++ pyStr ext)
      | _ => .typeError

/-- `utils.graphql_request`, given the status and parsed body of the HTTP
answer: raise on a non-200 status, return the envelope verbatim otherwise. -/
def graphql_request (status : Nat) (parsed : PyVal) : Except PyExc PyVal :=
  if status ≠ 200 then .error (transportError parsed) else .ok parsed

/-- `utils.graphql_multipart_request` surfaces transport errors exactly as
`graphql_request` does (the multipart encoding and header merging do not
affect the parsed response). -/
def graphql_multipart_request (status : Nat) (parsed : PyVal) :
    Except PyExc PyVal :=
  graphql_request status parsed

/-- The warning line printed by `override_dict` for a key whose current
value is a nested dict. -/
def warnMsg (key : String) : String :=
  "**warning**: key \x27" ++ key ++
    "\x27 contained a dict make sure to override each value in the nested dict."

/-- Python `a[key] = val` on a dict: update the existing binding in place
(keeping its position), or append a fresh binding at the end. -/
def dictSet : List (String × PyVal) → String → PyVal → List (String × PyVal)
  | [], k, v => [(k, v)]
  | (k1, v1) :: rest, k, v =>
    if k1 == k then (k1, v) :: rest else (k1, v1) :: dictSet rest k v

/-- The `for key, val in overrides.items()` loop of `utils.override_dict`,
threading the mutated dict and accumulating the printed warnings. -/
def override_dict_go (a : List (String × PyVal)) :
    List (String × PyVal) → List String × List (String × PyVal)
  | [] => ([], a)
  | (k, v) :: rest =>
    let ws : List String :=
      match lookupKey a k with
      | some (.dict _) => [warnMsg k]
      | _ => []
    let res := override_dict_go (dictSet a k v) rest
    (ws ++ res.1, res.2)

/-- `utils.override_dict(a, overrides)`: for each override key in order,
print a warning when the current value under that key is a dict, then
assign. The function mutates `a` in place and returns `None`; the embedding
returns the warning list paired with the final state of `a`. -/
def override_dict (a overrides : List (String × PyVal)) :
    List String × List (String × PyVal) :=
  override_dict_go a overrides

/-- A character of a JSON string, escaped as `json.dumps` escapes it (the
escapes exercised by this library: backslash, quote, newline). -/
def jsonEscChar (c : Char) : String :=
  if c = '\\' then "\\\\"
  else if c = '"' then "\\\""
  else if c = '\n' then "\\n"
  else c.toString

/-- A JSON string literal as `json.dumps` renders it. -/
def jsonQuote (s : String) : String :=
  "\"" ++ String.join (s.toList.map jsonEscChar) ++ "\""

mutual
/-- `json.dumps(v)` with the default separators (`", "` and `": "`), dict
keys in insertion order. -/
def jsonDumps : PyVal → String
  | .none => "null"
  | .bool b => if b then "true" else "false"
  | .int n => toString n
  | .str s => jsonQuote s
  | .list xs => "[" ++ String.intercalate ", " (jsonDumpsList xs) ++ "]"
  | .dict kvs => "\x7b" ++ String.intercalate ", " (jsonDumpsDict kvs) ++ "\x7d"

/-- `json.dumps` of each element of a list. -/
def jsonDumpsList : List PyVal → List String
  | [] => []
  | x :: xs => jsonDumps x :: jsonDumpsList xs

/-- `json.dumps` of each `"key": value` entry of a dict. -/
def jsonDumpsDict : List (String × PyVal) → List String
  | [] => []
  | (k, v) :: rest => (jsonQuote k ++ ": " ++ jsonDumps v) :: jsonDumpsDict rest
end

/-- The `ProductMediaCreate` mutation text of `utils.get_operations`. -/
def product_media_query : String :=
  "\n        mutation ProductMediaCreate($product: ID!, $image: Upload!, $alt: String) \x7b\n            productMediaCreate(input: \x7balt: $alt, image: $image, product: $product\x7d) \x7b\n                media \x7b\n                    id\n                \x7d\n                productErrors \x7b\n                    field\n                    message\n                \x7d\n            \x7d\n        \x7d\n    "

/-- `utils.get_operations(product_id, alt)`: the query text paired with the
variables dict, the file variable holding the placeholder string "0". -/
def get_operations (product_id : String) (alt : String := "") : PyVal :=
  .dict [("query", .str product_media_query),
         ("variables", .dict [("product", .str product_id),
                              ("image", .str "0"),
                              ("alt", .str alt)])]

/-- The file triple of a multipart body: original filename, opened binary
stream, guessed MIME type (`mimetypes.guess_type` may yield `None`). -/
structure FilePart (σ : Type) where
  name : String
  stream : σ
  mime : Option String

/-- The three parts of the GraphQL multipart body built by
`utils.get_payload`. -/
structure MultipartBody (σ : Type) where
  operations : String
  map : String
  filePart : FilePart σ

/-- `utils.get_payload(product_id, file_path, alt)`. The filesystem-facing
operations (`Path(file_path).name`, `open(file_path, 'rb')`,
`mimetypes.guess_type(file_path)`) are supplied as parameters `pathName`,
`openBin` and `guessType`, `σ` being the type of open binary streams. -/
def get_payload {σ : Type} (pathName : String → String)
    (guessType : String → Option String) (openBin : String → σ)
    (product_id file_path : String) (alt : String := "") : MultipartBody σ :=
  { operations := jsonDumps (get_operations product_id alt),
    map := jsonDumps (.dict [("0", .list [.str "variables.image"])]),
    filePart := { name := pathName file_path,
                  stream := openBin file_path,
                  mime := guessType file_path } }

/-! ## The data loader's wrapper methods (`data_loader.py`)

Each wrapper performs `graphql_request` (modelled by the pair of HTTP
status and parsed body the server answers with), passes the response
through `handle_errors`, and only then extracts the payload. The paging
loops additionally thread a cursor; a `server` function maps the request's
variables to the server's answer, and a fuel argument bounds the number of
iterations (`Option.none` meaning the Python loop would still be running).
Each loop also records the trace of issued requests. -/

/-- The errors path used by `ETLDataLoader.update_shop_settings`. -/
def shopSettingsPath : List String := ["data", "shopSettingsUpdate", "errors"]

/-- `ETLDataLoader.update_shop_settings`: request, `handle_errors` with the
`shopSettingsUpdate` errors path, then return
`response["data"]["shopSettingsUpdate"]["shop"]`. -/
def update_shop_settings (status : Nat) (parsed : PyVal) : Except PyExc PyVal := do
  let response ← graphql_request status parsed
  handle_errors response (some shopSettingsPath)
  let d ← pyGet response "data"
  let s ← pyGet d "shopSettingsUpdate"
  pyGet s "shop"

/-- The errors path used by `ETLDataLoader.create_product_media`. -/
def productMediaPath : List String := ["data", "productMediaCreate", "errors"]

/-- `ETLDataLoader.create_product_media`: on a truthy `file_path` issue the
multipart request, otherwise the plain JSON request; in both cases pass the
response through `handle_errors` with the `productMediaCreate` errors path
and return `response["data"]["productMediaCreate"]["media"]["id"]`. The two
potential server answers are supplied as status/body pairs. -/
def create_product_media (file_path : String)
    (multipartStatus : Nat) (multipartParsed : PyVal)
    (jsonStatus : Nat) (jsonParsed : PyVal) : Except PyExc PyVal := do
  let response ←
    if file_path ≠ "" then graphql_multipart_request multipartStatus multipartParsed
    else graphql_request jsonStatus jsonParsed
  handle_errors response (some productMediaPath)
  let d ← pyGet response "data"
  let p ← pyGet d "productMediaCreate"
  let m ← pyGet p "media"
  pyGet m "id"

/-- The `for edge in data["edges"]: acc.append(edge["node"])` loop shared
by the fetch methods. -/
def extractNodes : List PyVal → Except PyExc (List PyVal)
  | [] => .ok []
  | e :: rest => do
    let n ← pyGet e "node"
    let ns ← extractNodes rest
    .ok (n :: ns)

/-- One page of `ETLDataLoader.fetch_warehouses`, after `handle_errors`:
`response["data"]["warehouses"]`, its nodes, `pageInfo["hasNextPage"]` and
`pageInfo["endCursor"]`. -/
def warehousesPage (response : PyVal) :
    Except PyExc (List PyVal × PyVal × PyVal) := do
  let d ← pyGet response "data"
  let w ← pyGet d "warehouses"
  let edgesV ← pyGet w "edges"
  let edges ← iterElems edgesV
  let nodes ← extractNodes edges
  let pi ← pyGet w "pageInfo"
  let hnp ← pyGet pi "hasNextPage"
  let ec ← pyGet pi "endCursor"
  .ok (nodes, hnp, ec)

/-- One iteration's request/validation/extraction for
`ETLDataLoader.fetch_warehouses`: issue the request at the given cursor,
pass the response through `handle_errors`, then read the page. -/
def warehousesFetchPage (server : PyVal → Nat × PyVal) (after : PyVal) :
    Except PyExc (List PyVal × PyVal × PyVal) := do
  let response ← graphql_request (server after).1 (server after).2
  handle_errors response Option.none
  warehousesPage response

/-- The `while has_next_page` loop of `ETLDataLoader.fetch_warehouses`:
`after` is the current cursor (`variables["after"]`), `acc` the accumulated
warehouses, `trace` the cursors of the requests issued so far. -/
def fetch_warehouses_go (server : PyVal → Nat × PyVal) :
    Nat → PyVal → List PyVal → List PyVal →
    Option (Except PyExc (List PyVal × List PyVal))
  | 0, _, _, _ => Option.none
  | Nat.succ fuel, after, acc, trace =>
    match warehousesFetchPage server after with
    | .error e => some (.error e)
    | .ok (nodes, hnp, ec) =>
      if truthy hnp then
        fetch_warehouses_go server fuel ec (acc ++ nodes) (trace ++ [after])
      else
        some (.ok (acc ++ nodes, trace ++ [after]))

/-- `ETLDataLoader.fetch_warehouses`: run the loop from the empty cursor,
returning the accumulated warehouses and the request trace. -/
def fetch_warehouses (server : PyVal → Nat × PyVal) (fuel : Nat) :
    Option (Except PyExc (List PyVal × List PyVal)) :=
  fetch_warehouses_go server fuel (.str "") [] []

/-- One iteration's request/validation/extraction for
`ETLDataLoader.fetch_product_categories`: issue the request at the given
level and cursor, pass the response through `handle_errors`, then read
`response["data"]["categories"]`. -/
def categoriesFetchPage (server : Nat → PyVal → Nat × PyVal) (level : Nat)
    (after : PyVal) : Except PyExc PyVal := do
  let response ← graphql_request (server level after).1 (server level after).2
  handle_errors response Option.none
  let d ← pyGet response "data"
  pyGet d "categories"

/-- The `for edge in categories["edges"]` accumulation of one page. -/
def categoriesNodes (categories : PyVal) : Except PyExc (List PyVal) := do
  let edgesV ← pyGet categories "edges"
  let edges ← iterElems edgesV
  extractNodes edges

/-- `categories["pageInfo"]["hasNextPage"]`. -/
def categoriesHasNext (categories : PyVal) : Except PyExc PyVal := do
  let pi ← pyGet categories "pageInfo"
  pyGet pi "hasNextPage"

/-- `categories["pageInfo"]["endCursor"]`. -/
def categoriesEndCursor (categories : PyVal) : Except PyExc PyVal := do
  let pi ← pyGet categories "pageInfo"
  pyGet pi "endCursor"

/-- The `while has_next_page` loop of
`ETLDataLoader.fetch_product_categories`: `level` and `after` are the
current query variables, `acc` the accumulated categories, `trace` the
`(level, after)` pairs of the requests issued so far. The body reads
`categories["totalCount"]` first: when truthy it accumulates the page's
nodes and either follows `endCursor` (`hasNextPage` truthy) or advances to
the next level with a fresh empty cursor; when falsy the whole loop stops. -/
def fetch_categories_go (server : Nat → PyVal → Nat × PyVal) :
    Nat → Nat → PyVal → List PyVal → List (Nat × PyVal) →
    Option (Except PyExc (List PyVal × List (Nat × PyVal)))
  | 0, _, _, _, _ => Option.none
  | Nat.succ fuel, level, after, acc, trace =>
    match categoriesFetchPage server level after with
    | .error e => some (.error e)
    | .ok categories =>
      match pyGet categories "totalCount" with
      | .error e => some (.error e)
      | .ok tc =>
        if truthy tc then
          match categoriesNodes categories with
          | .error e => some (.error e)
          | .ok nodes =>
            match categoriesHasNext categories with
            | .error e => some (.error e)
            | .ok hnp =>
              if truthy hnp then
                match categoriesEndCursor categories with
                | .error e => some (.error e)
                | .ok ec =>
                  fetch_categories_go server fuel level ec (acc ++ nodes)
                    (trace ++ [(level, after)])
              else
                fetch_categories_go server fuel (level + 1) (.str "")
                  (acc ++ nodes) (trace ++ [(level, after)])
        else
          some (.ok (acc, trace ++ [(level, after)]))

/-- `ETLDataLoader.fetch_product_categories`: run the loop from level 0 and
the empty cursor, returning the accumulated categories and the request
trace. -/
def fetch_product_categories (server : Nat → PyVal → Nat × PyVal) (fuel : Nat) :
    Option (Except PyExc (List PyVal × List (Nat × PyVal))) :=
  fetch_categories_go server fuel 0 (.str "") [] []

/-- Discriminator for nested dict values (`type(a[key]) == dict`). -/
def isDict : PyVal → Bool
  | .dict _ => true
  | _ => false

/-! ## Lemmas about `override_dict` -/

theorem lookupKey_dictSet_self (a : List (String × PyVal)) (k : String) (v : PyVal) :
    lookupKey (dictSet a k v) k = some v := by
  induction a with
  | nil => simp [dictSet, lookupKey]
  | cons p rest ih =>
    obtain ⟨pk, pv⟩ := p
    by_cases hp : pk = k
    · subst hp
      simp [dictSet, lookupKey]
    · simp [dictSet, lookupKey, hp, ih]

theorem lookupKey_dictSet_ne (a : List (String × PyVal)) (kOld k : String)
    (v : PyVal) (h : kOld ≠ k) :
    lookupKey (dictSet a kOld v) k = lookupKey a k := by
  induction a with
  | nil => simp [dictSet, lookupKey, h]
  | cons p rest ih =>
    obtain ⟨pk, pv⟩ := p
    by_cases hp : pk = kOld
    · subst hp
      simp [dictSet, lookupKey, fun hc : pk = k => h hc]
    · by_cases hk : pk = k
      · subst hk
        simp [dictSet, lookupKey, hp]
      · simp [dictSet, lookupKey, hp, hk, ih]

theorem lookupKey_append (a b : List (String × PyVal)) (k : String) :
    lookupKey (a ++ b) k = (lookupKey a k <|> lookupKey b k) := by
  induction a with
  | nil => simp [lookupKey]
  | cons p rest ih =>
    obtain ⟨pk, pv⟩ := p
    by_cases hp : pk = k
    · subst hp
      simp [lookupKey]
    · simp [lookupKey, hp, ih]

theorem lookupKey_eq_none_of_not_mem (a : List (String × PyVal)) (k : String)
    (h : k ∉ a.map Prod.fst) : lookupKey a k = Option.none := by
  induction a with
  | nil => rfl
  | cons p rest ih =>
    obtain ⟨pk, pv⟩ := p
    simp only [List.map_cons, List.mem_cons, not_or] at h
    have hp : ¬ pk = k := fun hc => h.1 hc.symm
    simp [lookupKey, hp, ih h.2]

theorem dictSet_fresh (a : List (String × PyVal)) (k : String) (v : PyVal)
    (h : lookupKey a k = Option.none) : dictSet a k v = a ++ [(k, v)] := by
  induction a with
  | nil => rfl
  | cons p rest ih =>
    obtain ⟨pk, pv⟩ := p
    by_cases hp : pk = k
    · subst hp
      simp [lookupKey] at h
    · have hb : (pk == k) = false := beq_eq_false_iff_ne.mpr hp
      simp only [lookupKey, hb, Bool.false_eq_true, if_false] at h
      simp [dictSet, hp, ih h]

theorem override_go_lookup_not_mem (o : List (String × PyVal)) :
    ∀ (a : List (String × PyVal)) (k : String), k ∉ o.map Prod.fst →
      lookupKey (override_dict_go a o).2 k = lookupKey a k := by
  induction o with
  | nil => intro a k _; rfl
  | cons p rest ih =>
    intro a k h
    obtain ⟨k1, v1⟩ := p
    simp only [List.map_cons, List.mem_cons, not_or] at h
    have h1 : k1 ≠ k := fun hc => h.1 hc.symm
    simp only [override_dict_go]
    rw [ih (dictSet a k1 v1) k h.2, lookupKey_dictSet_ne a k1 k v1 h1]

theorem override_go_lookup_mem (o : List (String × PyVal)) :
    ∀ (a : List (String × PyVal)) (k : String), (o.map Prod.fst).Nodup →
      k ∈ o.map Prod.fst →
      lookupKey (override_dict_go a o).2 k = lookupKey o k := by
  induction o with
  | nil => intro a k _ h; simp at h
  | cons p rest ih =>
    intro a k hnd hmem
    obtain ⟨k1, v1⟩ := p
    simp only [List.map_cons, List.nodup_cons] at hnd
    simp only [List.map_cons, List.mem_cons] at hmem
    simp only [override_dict_go]
    by_cases h1 : k1 = k
    · subst h1
      rw [override_go_lookup_not_mem rest (dictSet a k1 v1) k1 hnd.1,
        lookupKey_dictSet_self]
      simp [lookupKey]
    · have hk : k ∈ rest.map Prod.fst := by
        rcases hmem with h | h
        · exact absurd h.symm h1
        · exact h
      rw [ih (dictSet a k1 v1) k hnd.2 hk]
      simp [lookupKey, h1]

theorem override_go_append (o : List (String × PyVal)) :
    ∀ (a : List (String × PyVal)), (o.map Prod.fst).Nodup →
      (∀ p ∈ o, lookupKey a p.1 = Option.none) →
      (override_dict_go a o).2 = a ++ o := by
  induction o with
  | nil => intro a _ _; simp [override_dict_go]
  | cons p rest ih =>
    intro a hnd hfresh
    obtain ⟨k1, v1⟩ := p
    simp only [List.map_cons, List.nodup_cons] at hnd
    simp only [override_dict_go]
    rw [dictSet_fresh a k1 v1 (hfresh (k1, v1) (by simp))]
    rw [ih (a ++ [(k1, v1)]) hnd.2 ?_]
    · simp
    · intro p hp
      rw [lookupKey_append]
      rw [hfresh p (by simp [hp])]
      have hne : k1 ≠ p.1 := by
        intro hc
        exact hnd.1 (hc ▸ (List.mem_map.mpr ⟨p, hp, rfl⟩))
      simp [lookupKey, fun hc : k1 = p.1 => hne hc]

theorem override_go_warn (o : List (String × PyVal)) :
    ∀ (a : List (String × PyVal)) (k : String) (d : List (String × PyVal)),
      lookupKey a k = some (PyVal.dict d) → k ∈ o.map Prod.fst →
      warnMsg k ∈ (override_dict_go a o).1 := by
  induction o with
  | nil => intro a k d _ h; simp at h
  | cons p rest ih =>
    intro a k d hdict hmem
    obtain ⟨k1, v1⟩ := p
    simp only [List.map_cons, List.mem_cons] at hmem
    simp only [override_dict_go]
    by_cases h1 : k1 = k
    · subst h1
      rw [hdict]
      simp
    · have hk : k ∈ rest.map Prod.fst := by
        rcases hmem with h | h
        · exact absurd h.symm h1
        · exact h
      have hdict2 : lookupKey (dictSet a k1 v1) k = some (PyVal.dict d) := by
        rw [lookupKey_dictSet_ne a k1 k v1 h1, hdict]
      have := ih (dictSet a k1 v1) k d hdict2 hk
      exact List.mem_append.mpr (Or.inr this)

/-- C5: for mappings with disjoint key sets `override_dict` leaves the
baseline holding exactly the union of both mappings (in place, the
overrides appended behind the baseline's bindings); for a key present in
both whose baseline value is not a nested dict, the override value replaces
the baseline value. -/
theorem C5_override_dict_union :
    (∀ a o : List (String × PyVal), (o.map Prod.fst).Nodup →
      (a.map Prod.fst).Disjoint (o.map Prod.fst) →
      (override_dict a o).2 = a ++ o) ∧
    (∀ (a o : List (String × PyVal)) (k : String) (v : PyVal),
      (o.map Prod.fst).Nodup → lookupKey a k = some v → isDict v = false →
      k ∈ o.map Prod.fst →
      lookupKey (override_dict a o).2 k = lookupKey o k) := by
  constructor
  · intro a o hnd hdisj
    apply override_go_append o a hnd
    intro p hp
    apply lookupKey_eq_none_of_not_mem
    intro hmem
    exact hdisj hmem (List.mem_map.mpr ⟨p, hp, rfl⟩)
  · intro a o k v hnd _ _ hmem
    exact override_go_lookup_mem o a k hnd hmem

/-- Witness for C5 at concrete dicts. -/
theorem C5_override_dict_union_witness :
    (override_dict [("a", PyVal.int 1)] [("b", PyVal.int 2)]).2
        = [("a", PyVal.int 1), ("b", PyVal.int 2)] ∧
    lookupKey (override_dict [("k", PyVal.int 1)] [("k", PyVal.int 9)]).2 "k"
        = lookupKey [("k", PyVal.int 9)] "k" :=
  ⟨C5_override_dict_union.1 [("a", PyVal.int 1)] [("b", PyVal.int 2)]
      (by simp) (by simp),
    C5_override_dict_union.2 [("k", PyVal.int 1)] [("k", PyVal.int 9)] "k"
      (PyVal.int 1) (by simp) rfl rfl (by simp)⟩

/-- C6: whenever the baseline holds a nested dict at key `k` and the
overrides also bind `k`, `override_dict` prints the warning for `k` and
replaces the nested dict wholesale with the override value (no recursive
merge). -/
theorem C6_override_dict_nested :
    ∀ (a o : List (String × PyVal)) (k : String) (d : List (String × PyVal)),
      (o.map Prod.fst).Nodup → lookupKey a k = some (PyVal.dict d) →
      k ∈ o.map Prod.fst →
      warnMsg k ∈ (override_dict a o).1 ∧
      lookupKey (override_dict a o).2 k = lookupKey o k := by
  intro a o k d hnd hdict hmem
  exact ⟨override_go_warn o a k d hdict hmem,
    override_go_lookup_mem o a k hnd hmem⟩

/-- Witness for C6 at a concrete nested dict. -/
theorem C6_override_dict_nested_witness :
    warnMsg "b" ∈
      (override_dict [("b", PyVal.dict [("x", PyVal.int 1)])]
        [("b", PyVal.int 2)]).1 ∧
    lookupKey (override_dict [("b", PyVal.dict [("x", PyVal.int 1)])]
        [("b", PyVal.int 2)]).2 "b"
      = lookupKey [("b", PyVal.int 2)] "b" :=
  C6_override_dict_nested [("b", PyVal.dict [("x", PyVal.int 1)])]
    [("b", PyVal.int 2)] "b" [("x", PyVal.int 1)] (by simp) rfl (by simp)

/-- C7: `graphql_request` returns normally if and only if the HTTP status
is 200, and then returns the parsed envelope verbatim; on a non-200 status
with a well-formed first error entry it raises the concatenation of that
entry's `message` and `extensions`; on a non-200 status whose body lacks an
`errors` key the lookup itself fails (a `KeyError`). -/
theorem C7_graphql_request_status :
    (∀ (status : Nat) (parsed v : PyVal),
      graphql_request status parsed = .ok v ↔ (status = 200 ∧ v = parsed)) ∧
    (∀ (status : Nat) (kvs entryKvs : List (String × PyVal))
        (rest : List PyVal) (m ext : PyVal),
      status ≠ 200 →
      lookupKey kvs "errors" = some (.list (PyVal.dict entryKvs :: rest)) →
      lookupKey entryKvs "message" = some m →
      lookupKey entryKvs "extensions" = some ext →
      graphql_request status (.dict kvs) =
        .error (.exc (pyStr m ++ "\n extensions: " ++ pyStr ext))) ∧
    (∀ (status : Nat) (kvs : List (String × PyVal)),
      status ≠ 200 → lookupKey kvs "errors" = Option.none →
      graphql_request status (.dict kvs) = .error (.keyError "errors")) := by
  refine ⟨?_, ?_, ?_⟩
  · intro status parsed v
    unfold graphql_request
    by_cases hs : status = 200
    · subst hs
      simp
      tauto
    · rw [if_pos hs]
      simp [hs]
  · intro status kvs entryKvs rest m ext hs hE hm hx
    unfold graphql_request
    rw [if_pos hs]
    unfold transportError
    simp [pyGet, hE, pyIndex0, hm, hx]
  · intro status kvs hs hE
    unfold graphql_request
    rw [if_pos hs]
    unfold transportError
    simp [pyGet, hE]

/-- Witness for C7 at concrete statuses and bodies. -/
theorem C7_graphql_request_status_witness :
    graphql_request 200 (PyVal.dict []) = .ok (PyVal.dict []) ∧
    graphql_request 400 (PyVal.dict [("errors", PyVal.list
        [PyVal.dict [("message", PyVal.str "bad"),
                     ("extensions", PyVal.str "E")]])])
      = .error (.exc ("bad\n extensions: E")) ∧
    graphql_request 500 (PyVal.dict []) = .error (.keyError "errors") :=
  ⟨(C7_graphql_request_status.1 200 (PyVal.dict []) (PyVal.dict [])).mpr
      ⟨rfl, rfl⟩,
    C7_graphql_request_status.2.1 400
      [("errors", PyVal.list [PyVal.dict [("message", PyVal.str "bad"),
        ("extensions", PyVal.str "E")]])]
      [("message", PyVal.str "bad"), ("extensions", PyVal.str "E")] []
      (PyVal.str "bad") (PyVal.str "E") (by decide) rfl rfl rfl,
    C7_graphql_request_status.2.2 500 [] (by decide) rfl⟩

/-- C8: `get_payload` produces a `map` part equal to the JSON encoding of
`\x7b"0": ["variables.image"]\x7d`, an `operations` part equal to the JSON
encoding of the `get_operations` document whose variables bind `alt` to the
given alt text, `product` to the given id and `image` to the string "0",
and a file part carrying the file's name, its binary stream and its guessed
MIME type. -/
theorem C8_get_payload_spec {σ : Type} (pathName : String → String)
    (guessType : String → Option String) (openBin : String → σ)
    (product_id file_path alt : String) :
    (get_payload pathName guessType openBin product_id file_path alt).map
        = jsonDumps (PyVal.dict [("0", PyVal.list [PyVal.str "variables.image"])]) ∧
    (get_payload pathName guessType openBin product_id file_path alt).map
        = "\x7b\"0\": [\"variables.image\"]\x7d" ∧
    (get_payload pathName guessType openBin product_id file_path alt).operations
        = jsonDumps (PyVal.dict
            [("query", PyVal.str product_media_query),
             ("variables", PyVal.dict
               [("product", PyVal.str product_id),
                ("image", PyVal.str "0"),
                ("alt", PyVal.str alt)])]) ∧
    lookupKey [("product", PyVal.str product_id), ("image", PyVal.str "0"),
        ("alt", PyVal.str alt)] "alt" = some (PyVal.str alt) ∧
    lookupKey [("product", PyVal.str product_id), ("image", PyVal.str "0"),
        ("alt", PyVal.str alt)] "product" = some (PyVal.str product_id) ∧
    lookupKey [("product", PyVal.str product_id), ("image", PyVal.str "0"),
        ("alt", PyVal.str alt)] "image" = some (PyVal.str "0") ∧
    (get_payload pathName guessType openBin product_id file_path alt).filePart
        = { name := pathName file_path, stream := openBin file_path,
            mime := guessType file_path } :=
  ⟨rfl, rfl, rfl, rfl, rfl, rfl, rfl⟩

/-! ## Lemmas about `handle_errors` -/

/-- Lookup of a string key inside a dict value (`Option.none` when the
value is not a dict or lacks the key). -/
def dGet (e : PyVal) (k : String) : Option PyVal :=
  match e with
  | .dict kvs => lookupKey kvs k
  | _ => Option.none

/-- The formatted line `handle_errors` builds for one path-stage entry. -/
def fmtEntry (e : PyVal) : String :=
  pyStr ((dGet e "field").getD PyVal.none) ++ " : " ++
    pyStr ((dGet e "message").getD PyVal.none)

/-- The message string of one fallback-stage entry. -/
def msgStr (e : PyVal) : String :=
  match dGet e "message" with
  | some (.str s) => s
  | _ => ""

/-- The conditions under which the path stage of `handle_errors` collects
no text: the path is absent (Python `None`), empty (falsy tuple), or its
walk is abandoned because a key is missing or holds a falsy value. -/
def pathStageEmpty (response : PyVal) (errors_path : Option (List String)) : Prop :=
  errors_path = Option.none ∨ errors_path = some [] ∨
    (∃ p, errors_path = some p ∧ walkPath response p = .ok Option.none)

theorem any_key_of_lookup (kvs : List (String × PyVal)) (k : String) (v : PyVal)
    (h : lookupKey kvs k = some v) : (kvs.any (fun p => p.1 == k)) = true := by
  induction kvs with
  | nil => simp [lookupKey] at h
  | cons p rest ih =>
    obtain ⟨pk, pv⟩ := p
    by_cases hp : pk = k
    · subst hp
      simp
    · have hb : (pk == k) = false := beq_eq_false_iff_ne.mpr hp
      simp only [lookupKey, hb, Bool.false_eq_true, if_false] at h
      simp [hb, ih h]

theorem allStrs_map (ss : List String) :
    allStrs (ss.map PyVal.str) = some ss := by
  induction ss with
  | nil => rfl
  | cons s rest ih => simp [allStrs, ih]

theorem joinNewline_strs (ss : List String) :
    joinNewline (ss.map PyVal.str) = .ok (String.intercalate "\n" ss) := by
  unfold joinNewline
  rw [allStrs_map]

theorem formatLines_all (es : List PyVal)
    (h : ∀ e ∈ es, ∃ kvs, e = PyVal.dict kvs ∧
      (∃ f, lookupKey kvs "field" = some f) ∧
      (∃ m, lookupKey kvs "message" = some m)) :
    formatLines es = .ok (es.map fmtEntry) := by
  induction es with
  | nil => rfl
  | cons e rest ih =>
    obtain ⟨kvs, he, ⟨f, hf⟩, ⟨m, hm⟩⟩ := h e (by simp)
    subst he
    have hin : pyIn "field" (PyVal.dict kvs) = .ok true := by
      simp [pyIn, any_key_of_lookup kvs "field" f hf]
    have hfmt : formatFieldMessage (PyVal.dict kvs)
        = .ok (pyStr f ++ " : " ++ pyStr m) := by
      simp [formatFieldMessage, hf, hm]
    have hrest : formatLines rest = .ok (rest.map fmtEntry) :=
      ih (fun e he2 => h e (by simp [he2]))
    simp [formatLines, hin, hfmt, hrest, Bind.bind, Except.bind, fmtEntry,
      dGet, hf, hm]

theorem formatLines_nonef (es : List PyVal)
    (h : ∀ e ∈ es, pyIn "field" e = .ok false) :
    formatLines es = .ok [] := by
  induction es with
  | nil => rfl
  | cons e rest ih =>
    have he := h e (by simp)
    simp only [formatLines]
    rw [he]
    simp only [Bind.bind, Except.bind]
    simp only [Bool.false_eq_true, if_false]
    exact ih (fun e he2 => h e (by simp [he2]))

theorem collectMessages_all (es : List PyVal)
    (h : ∀ e ∈ es, ∃ kvs s, e = PyVal.dict kvs ∧
      lookupKey kvs "message" = some (.str s)) :
    collectMessages es = .ok (es.map (fun e => PyVal.str (msgStr e))) := by
  induction es with
  | nil => rfl
  | cons e rest ih =>
    obtain ⟨kvs, s, he, hm⟩ := h e (by simp)
    subst he
    have hin : pyIn "message" (PyVal.dict kvs) = .ok true := by
      simp [pyIn, any_key_of_lookup kvs "message" (PyVal.str s) hm]
    have hget : pyGet (PyVal.dict kvs) "message" = .ok (PyVal.str s) := by
      simp [pyGet, hm]
    have hrest : collectMessages rest
        = .ok (rest.map (fun e => PyVal.str (msgStr e))) :=
      ih (fun e he2 => h e (by simp [he2]))
    simp [collectMessages, hin, hget, hrest, Bind.bind, Except.bind, msgStr,
      dGet, hm]

theorem collectMessages_nonem (es : List PyVal)
    (h : ∀ e ∈ es, pyIn "message" e = .ok false) :
    collectMessages es = .ok [] := by
  induction es with
  | nil => rfl
  | cons e rest ih =>
    have he := h e (by simp)
    simp only [collectMessages]
    rw [he]
    simp only [Bind.bind, Except.bind]
    simp only [Bool.false_eq_true, if_false]
    exact ih (fun e he2 => h e (by simp [he2]))

theorem any_key_of_lookup_none (kvs : List (String × PyVal)) (k : String)
    (h : lookupKey kvs k = Option.none) :
    (kvs.any (fun p => p.1 == k)) = false := by
  induction kvs with
  | nil => rfl
  | cons p rest ih =>
    obtain ⟨pk, pv⟩ := p
    by_cases hp : pk = k
    · subst hp
      simp [lookupKey] at h
    · have hb : (pk == k) = false := beq_eq_false_iff_ne.mpr hp
      simp only [lookupKey, hb, Bool.false_eq_true, if_false] at h
      simp [hb, ih h]

theorem pathStage_of_empty (response : PyVal) (errors_path : Option (List String))
    (h : pathStageEmpty response errors_path) :
    pathStage response errors_path = .ok [] := by
  rcases h with h | h | ⟨p, hp, hw⟩
  · subst h; rfl
  · subst h; rfl
  · subst hp
    simp only [pathStage]
    by_cases he : p.isEmpty
    · rw [if_pos he]
    · rw [if_neg he, hw]
      simp [Except.bind, formatTarget]

theorem pathStage_of_nofield (response : PyVal) (p : List String)
    (es : List PyVal) (hw : walkPath response p = .ok (some (.list es)))
    (h : ∀ e ∈ es, pyIn "field" e = .ok false) :
    pathStage response (some p) = .ok [] := by
  simp only [pathStage]
  by_cases he : p.isEmpty
  · rw [if_pos he]
  · rw [if_neg he, hw]
    simp [Except.bind, formatTarget, iterElems, formatLines_nonef es h]

theorem handle_errors_raise_path (response : PyVal) (ep : Option (List String))
    (ss : List String) (hss : ss ≠ [])
    (h1 : pathStage response ep = .ok (ss.map PyVal.str)) :
    handle_errors response ep = .error (.exc (String.intercalate "\n" ss)) := by
  have hne : (ss.map PyVal.str).isEmpty = false := by simp [hss]
  unfold handle_errors
  rw [h1]
  simp only [Except.bind, hne, Bool.false_eq_true, if_false, finalize]
  rw [joinNewline_strs]

theorem handle_errors_raise_fallback (response : PyVal)
    (ep : Option (List String)) (ss : List String) (hss : ss ≠ [])
    (h1 : pathStage response ep = .ok [])
    (h2 : fallbackStage response = .ok (ss.map PyVal.str)) :
    handle_errors response ep = .error (.exc (String.intercalate "\n" ss)) := by
  have hne : (ss.map PyVal.str).isEmpty = false := by simp [hss]
  unfold handle_errors
  rw [h1]
  simp only [Except.bind, List.isEmpty_nil, if_true]
  rw [h2]
  simp only [Except.bind, hne, Bool.false_eq_true, if_false, finalize]
  rw [joinNewline_strs]

theorem handle_errors_ok_of_stages (response : PyVal) (ep : Option (List String))
    (h1 : pathStage response ep = .ok [])
    (h2 : fallbackStage response = .ok []) :
    handle_errors response ep = .ok () := by
  unfold handle_errors
  rw [h1]
  simp only [Except.bind, List.isEmpty_nil, if_true]
  rw [h2]
  simp [Except.bind, finalize]

/-- C3: when the errors path resolves to a non-empty list all of whose
entries are dicts carrying both a `field` and a `message` key,
`handle_errors` raises an exception whose message is the newline-joined
`"<field> : <message>"` line of each entry, in list order. -/
theorem C3_handle_errors_path_lines
    (response : PyVal) (path : List String) (entries : List PyVal)
    (hpath : path ≠ [])
    (hwalk : walkPath response path = .ok (some (.list entries)))
    (hne : entries ≠ [])
    (hall : ∀ e ∈ entries, ∃ kvs, e = PyVal.dict kvs ∧
      (∃ f, lookupKey kvs "field" = some f) ∧
      (∃ m, lookupKey kvs "message" = some m)) :
    handle_errors response (some path)
      = .error (.exc (String.intercalate "\n" (entries.map fmtEntry))) := by
  have hstage : pathStage response (some path)
      = .ok ((entries.map fmtEntry).map PyVal.str) := by
    simp only [pathStage]
    rw [if_neg (by simpa using hpath), hwalk]
    simp [Except.bind, formatTarget, iterElems, formatLines_all entries hall]
  exact handle_errors_raise_path response (some path) (entries.map fmtEntry)
    (by simp [hne]) hstage

/-- Witness for C3 at a concrete response. -/
theorem C3_handle_errors_path_lines_witness :
    handle_errors
      (PyVal.dict [("data", PyVal.dict [("productCreate", PyVal.dict
        [("errors", PyVal.list [PyVal.dict
          [("field", PyVal.str "name"), ("message", PyVal.str "required")]])])])])
      (some ["data", "productCreate", "errors"])
      = .error (.exc "name : required") :=
  C3_handle_errors_path_lines
    (PyVal.dict [("data", PyVal.dict [("productCreate", PyVal.dict
      [("errors", PyVal.list [PyVal.dict
        [("field", PyVal.str "name"), ("message", PyVal.str "required")]])])])])
    ["data", "productCreate", "errors"]
    [PyVal.dict [("field", PyVal.str "name"), ("message", PyVal.str "required")]]
    (by simp) rfl (by simp)
    (by
      intro e he
      rw [List.mem_singleton] at he
      subst he
      exact ⟨_, rfl, ⟨_, rfl⟩, ⟨_, rfl⟩⟩)

/-- C4: when the path stage collects nothing (path absent, empty, or its
walk abandoned on a missing key or falsy value), `handle_errors` raises the
newline-joined `message`s of a non-empty top-level `errors` list, in order;
and with no top-level errors either (key absent or value falsy) it returns
normally. -/
theorem C4_handle_errors_fallback :
    (∀ (errors_path : Option (List String)) (kvs : List (String × PyVal))
        (entries : List PyVal),
      pathStageEmpty (PyVal.dict kvs) errors_path →
      lookupKey kvs "errors" = some (.list entries) →
      entries ≠ [] →
      (∀ e ∈ entries, ∃ ekvs s, e = PyVal.dict ekvs ∧
        lookupKey ekvs "message" = some (.str s)) →
      handle_errors (PyVal.dict kvs) errors_path
        = .error (.exc (String.intercalate "\n" (entries.map msgStr)))) ∧
    (∀ (errors_path : Option (List String)) (kvs : List (String × PyVal)),
      pathStageEmpty (PyVal.dict kvs) errors_path →
      (lookupKey kvs "errors" = Option.none ∨
        ∃ v, lookupKey kvs "errors" = some v ∧ truthy v = false) →
      handle_errors (PyVal.dict kvs) errors_path = .ok ()) := by
  constructor
  · intro errors_path kvs entries hempty herrs hne hmsgs
    have hstage := pathStage_of_empty (PyVal.dict kvs) errors_path hempty
    have hin : pyIn "errors" (PyVal.dict kvs) = .ok true := by
      simp [pyIn, any_key_of_lookup kvs "errors" _ herrs]
    have hget : pyGet (PyVal.dict kvs) "errors" = .ok (.list entries) := by
      simp [pyGet, herrs]
    have htr : truthy (.list entries) = true := by
      simp [truthy, hne]
    have hfb : fallbackStage (PyVal.dict kvs)
        = .ok ((entries.map msgStr).map PyVal.str) := by
      unfold fallbackStage
      rw [hin]
      simp only [Except.bind, if_true]
      rw [hget]
      simp only [Except.bind, htr, if_true, iterElems]
      rw [collectMessages_all entries hmsgs]
      exact congrArg Except.ok (by rw [List.map_map]; rfl)
    exact handle_errors_raise_fallback (PyVal.dict kvs) errors_path
      (entries.map msgStr) (by simp [hne]) hstage hfb
  · intro errors_path kvs hempty herrs
    have hstage := pathStage_of_empty (PyVal.dict kvs) errors_path hempty
    have hfb : fallbackStage (PyVal.dict kvs) = .ok [] := by
      rcases herrs with hnone | ⟨v, hsome, hfalsy⟩
      · have hin : pyIn "errors" (PyVal.dict kvs) = .ok false := by
          simp [pyIn, any_key_of_lookup_none kvs "errors" hnone]
        unfold fallbackStage
        rw [hin]
        simp [Except.bind]
      · have hin : pyIn "errors" (PyVal.dict kvs) = .ok true := by
          simp [pyIn, any_key_of_lookup kvs "errors" v hsome]
        have hget : pyGet (PyVal.dict kvs) "errors" = .ok v := by
          simp [pyGet, hsome]
        unfold fallbackStage
        rw [hin]
        simp only [Except.bind, if_true]
        rw [hget]
        simp [Except.bind, hfalsy]
    exact handle_errors_ok_of_stages (PyVal.dict kvs) errors_path hstage hfb

/-- Witness for C4 at concrete responses. -/
theorem C4_handle_errors_fallback_witness :
    handle_errors
      (PyVal.dict [("errors", PyVal.list
        [PyVal.dict [("message", PyVal.str "m1")],
         PyVal.dict [("message", PyVal.str "m2")]])])
      Option.none
      = .error (.exc "m1\nm2") ∧
    handle_errors (PyVal.dict [("data", PyVal.int 1)]) Option.none = .ok () :=
  ⟨C4_handle_errors_fallback.1 Option.none
      [("errors", PyVal.list
        [PyVal.dict [("message", PyVal.str "m1")],
         PyVal.dict [("message", PyVal.str "m2")]])]
      [PyVal.dict [("message", PyVal.str "m1")],
       PyVal.dict [("message", PyVal.str "m2")]]
      (Or.inl rfl) rfl (by simp)
      (by
        intro e he
        rw [List.mem_cons, List.mem_singleton] at he
        rcases he with he | he <;> subst he
        · exact ⟨_, "m1", rfl, rfl⟩
        · exact ⟨_, "m2", rfl, rfl⟩),
    C4_handle_errors_fallback.2 Option.none [("data", PyVal.int 1)]
      (Or.inl rfl) (Or.inl rfl)⟩

/-- C10: when the path stage yields no line (path absent, empty,
abandoned, or resolved to entries all lacking a `field` key) and the
top-level `errors` list is non-empty but none of its entries carries a
`message` key, `handle_errors` returns normally: those errors are silently
dropped. -/
theorem C10_handle_errors_silent_drop
    (errors_path : Option (List String)) (kvs : List (String × PyVal))
    (entries : List PyVal)
    (hstagecond : pathStageEmpty (PyVal.dict kvs) errors_path ∨
      (∃ p es, errors_path = some p ∧
        walkPath (PyVal.dict kvs) p = .ok (some (.list es)) ∧
        ∀ e ∈ es, pyIn "field" e = .ok false))
    (herrs : lookupKey kvs "errors" = some (.list entries))
    (hne : entries ≠ [])
    (hnomsg : ∀ e ∈ entries, pyIn "message" e = .ok false) :
    handle_errors (PyVal.dict kvs) errors_path = .ok () := by
  have hstage : pathStage (PyVal.dict kvs) errors_path = .ok [] := by
    rcases hstagecond with h | ⟨p, es, hp, hw, hnof⟩
    · exact pathStage_of_empty (PyVal.dict kvs) errors_path h
    · subst hp
      exact pathStage_of_nofield (PyVal.dict kvs) p es hw hnof
  have hin : pyIn "errors" (PyVal.dict kvs) = .ok true := by
    simp [pyIn, any_key_of_lookup kvs "errors" _ herrs]
  have hget : pyGet (PyVal.dict kvs) "errors" = .ok (.list entries) := by
    simp [pyGet, herrs]
  have htr : truthy (.list entries) = true := by
    simp [truthy, hne]
  have hfb : fallbackStage (PyVal.dict kvs) = .ok [] := by
    unfold fallbackStage
    rw [hin]
    simp only [Except.bind, if_true]
    rw [hget]
    simp only [Except.bind, htr, if_true, iterElems]
    exact collectMessages_nonem entries hnomsg
  exact handle_errors_ok_of_stages (PyVal.dict kvs) errors_path hstage hfb

/-- Witness for C10 at a concrete response whose errors carry only codes. -/
theorem C10_handle_errors_silent_drop_witness :
    handle_errors
      (PyVal.dict [("data", PyVal.dict [("productCreate", PyVal.dict
        [("errors", PyVal.list [PyVal.dict [("message", PyVal.str "m")]])])]),
        ("errors", PyVal.list [PyVal.dict [("code", PyVal.str "X")]])])
      (some ["data", "productCreate", "errors"])
      = .ok () :=
  C10_handle_errors_silent_drop
    (some ["data", "productCreate", "errors"])
    [("data", PyVal.dict [("productCreate", PyVal.dict
      [("errors", PyVal.list [PyVal.dict [("message", PyVal.str "m")]])])]),
     ("errors", PyVal.list [PyVal.dict [("code", PyVal.str "X")]])]
    [PyVal.dict [("code", PyVal.str "X")]]
    (Or.inr ⟨["data", "productCreate", "errors"],
      [PyVal.dict [("message", PyVal.str "m")]], rfl, rfl,
      by
        intro e he
        rw [List.mem_singleton] at he
        subst he
        rfl⟩)
    rfl (by simp)
    (by
      intro e he
      rw [List.mem_singleton] at he
      subst he
      rfl)

/-! ## Lemmas about the pagination loops -/

theorem graphql_request_ok_dest (status : Nat) (parsed v : PyVal)
    (h : graphql_request status parsed = .ok v) : status = 200 ∧ v = parsed := by
  unfold graphql_request at h
  by_cases hs : status = 200
  · subst hs
    simp at h
    exact ⟨rfl, h.symm⟩
  · rw [if_pos hs] at h
    simp at h

/-- A well-formed warehouses page as the server returns it: the given items
wrapped as edges, with the given `hasNextPage` and `endCursor` values and
no error key anywhere. -/
def mkWarehousesPage (items : List PyVal) (hnp ec : PyVal) : PyVal :=
  .dict [("data", .dict [("warehouses", .dict
    [("pageInfo", .dict [("hasNextPage", hnp), ("endCursor", ec)]),
     ("edges", .list (items.map (fun it => .dict [("node", it)])))])])]

theorem extractNodes_wrap (items : List PyVal) :
    extractNodes (items.map (fun it => PyVal.dict [("node", it)])) = .ok items := by
  induction items with
  | nil => rfl
  | cons x rest ih =>
    simp [extractNodes, pyGet, lookupKey, ih, Bind.bind, Except.bind]

theorem handle_errors_no_errors_key (kvs : List (String × PyVal))
    (h : lookupKey kvs "errors" = Option.none) :
    handle_errors (PyVal.dict kvs) Option.none = .ok () := by
  apply handle_errors_ok_of_stages (PyVal.dict kvs) Option.none rfl
  unfold fallbackStage
  rw [show pyIn "errors" (PyVal.dict kvs) = .ok false by
    simp [pyIn, any_key_of_lookup_none kvs "errors" h]]
  simp [Except.bind]

theorem warehousesPage_mk (items : List PyVal) (hnp ec : PyVal) :
    warehousesPage (mkWarehousesPage items hnp ec) = .ok (items, hnp, ec) := by
  unfold warehousesPage mkWarehousesPage
  simp [pyGet, lookupKey, iterElems, extractNodes_wrap, Bind.bind, Except.bind]

theorem warehousesFetchPage_mk (server : PyVal → Nat × PyVal) (after : PyVal)
    (items : List PyVal) (hnp ec : PyVal)
    (hs : server after = (200, mkWarehousesPage items hnp ec)) :
    warehousesFetchPage server after = .ok (items, hnp, ec) := by
  unfold warehousesFetchPage
  rw [hs]
  have hh : handle_errors (mkWarehousesPage items hnp ec) Option.none = .ok () :=
    handle_errors_no_errors_key _ (by simp [mkWarehousesPage, lookupKey])
  simp [graphql_request, hh, warehousesPage_mk, Bind.bind, Except.bind]

theorem fetch_warehouses_go_step (server : PyVal → Nat × PyVal) (fuel : Nat)
    (after : PyVal) (acc trace : List PyVal) (items : List PyVal) (hnp ec : PyVal)
    (hs : server after = (200, mkWarehousesPage items hnp ec)) :
    fetch_warehouses_go server (fuel + 1) after acc trace =
      if truthy hnp then
        fetch_warehouses_go server fuel ec (acc ++ items) (trace ++ [after])
      else some (.ok (acc ++ items, trace ++ [after])) := by
  rw [fetch_warehouses_go, warehousesFetchPage_mk server after items hnp ec hs]

/-- C2: with a server answering three two-item pages whose `hasNextPage`
flags are true, true, false, `fetch_warehouses` returns the six items in
server order, having issued exactly three requests with cursors `""`, then
page 1's `endCursor`, then page 2's `endCursor`. -/
theorem C2_fetch_warehouses_pagination
    (server : PyVal → Nat × PyVal) (i1 i2 i3 i4 i5 i6 : PyVal)
    (c1 c2 : String) (ec3 : PyVal)
    (h1 : server (.str "") = (200, mkWarehousesPage [i1, i2] (.bool true) (.str c1)))
    (h2 : server (.str c1) = (200, mkWarehousesPage [i3, i4] (.bool true) (.str c2)))
    (h3 : server (.str c2) = (200, mkWarehousesPage [i5, i6] (.bool false) ec3)) :
    fetch_warehouses server 3 =
      some (.ok ([i1, i2, i3, i4, i5, i6],
        [.str "", .str c1, .str c2])) := by
  unfold fetch_warehouses
  rw [fetch_warehouses_go_step server 2 (.str "") [] [] [i1, i2]
    (.bool true) (.str c1) h1]
  simp only [truthy, if_true, List.nil_append]
  rw [fetch_warehouses_go_step server 1 (.str c1) [i1, i2] [.str ""] [i3, i4]
    (.bool true) (.str c2) h2]
  simp only [truthy, if_true, List.cons_append, List.nil_append]
  rw [fetch_warehouses_go_step server 0 (.str c2) [i1, i2, i3, i4]
    [.str "", .str c1] [i5, i6] (.bool false) ec3 h3]
  simp [truthy]

/-- A three-page demonstration server for the warehouses pager. -/
def warehousesDemoServer : PyVal → Nat × PyVal := fun c =>
  match c with
  | .str "c1" => (200, mkWarehousesPage [.int 3, .int 4] (.bool true) (.str "c2"))
  | .str "c2" => (200, mkWarehousesPage [.int 5, .int 6] (.bool false) PyVal.none)
  | _ => (200, mkWarehousesPage [.int 1, .int 2] (.bool true) (.str "c1"))

/-- Witness for C2 at the demonstration server. -/
theorem C2_fetch_warehouses_pagination_witness :
    fetch_warehouses warehousesDemoServer 3 =
      some (.ok ([.int 1, .int 2, .int 3, .int 4, .int 5, .int 6],
        [.str "", .str "c1", .str "c2"])) :=
  C2_fetch_warehouses_pagination warehousesDemoServer
    (.int 1) (.int 2) (.int 3) (.int 4) (.int 5) (.int 6)
    "c1" "c2" PyVal.none rfl rfl rfl

/-- One level-page's `categories` object: pageInfo, wrapped edges, and the
level's `totalCount`. -/
def mkCategories (tc : PyVal) (items : List PyVal) (hnp ec : PyVal) : PyVal :=
  .dict [("pageInfo", .dict [("hasNextPage", hnp), ("endCursor", ec)]),
         ("edges", .list (items.map (fun it => .dict [("node", it)]))),
         ("totalCount", tc)]

/-- A well-formed categories response envelope with no error key. -/
def mkCategoriesPage (tc : PyVal) (items : List PyVal) (hnp ec : PyVal) : PyVal :=
  .dict [("data", .dict [("categories", mkCategories tc items hnp ec)])]

theorem categoriesFetchPage_mk (server : Nat → PyVal → Nat × PyVal)
    (level : Nat) (after : PyVal) (items : List PyVal) (tc hnp ec : PyVal)
    (hs : server level after = (200, mkCategoriesPage tc items hnp ec)) :
    categoriesFetchPage server level after = .ok (mkCategories tc items hnp ec) := by
  unfold categoriesFetchPage
  rw [hs]
  have hh : handle_errors
      (PyVal.dict [("data", PyVal.dict [("categories", mkCategories tc items hnp ec)])])
      Option.none = .ok () :=
    handle_errors_no_errors_key _ (by simp [lookupKey])
  simp [graphql_request, hh, mkCategoriesPage, pyGet, lookupKey,
    Bind.bind, Except.bind]

theorem categories_totalCount (tc : PyVal) (items : List PyVal) (hnp ec : PyVal) :
    pyGet (mkCategories tc items hnp ec) "totalCount" = .ok tc := by
  simp [mkCategories, pyGet, lookupKey]

theorem categories_nodes (tc : PyVal) (items : List PyVal) (hnp ec : PyVal) :
    categoriesNodes (mkCategories tc items hnp ec) = .ok items := by
  unfold categoriesNodes
  simp [mkCategories, pyGet, lookupKey, iterElems, extractNodes_wrap,
    Bind.bind, Except.bind]

theorem categories_hasNext (tc : PyVal) (items : List PyVal) (hnp ec : PyVal) :
    categoriesHasNext (mkCategories tc items hnp ec) = .ok hnp := by
  unfold categoriesHasNext
  simp [mkCategories, pyGet, lookupKey, Bind.bind, Except.bind]

theorem categories_endCursor (tc : PyVal) (items : List PyVal) (hnp ec : PyVal) :
    categoriesEndCursor (mkCategories tc items hnp ec) = .ok ec := by
  unfold categoriesEndCursor
  simp [mkCategories, pyGet, lookupKey, Bind.bind, Except.bind]

theorem fetch_categories_go_step (server : Nat → PyVal → Nat × PyVal)
    (fuel level : Nat) (after : PyVal) (acc : List PyVal)
    (trace : List (Nat × PyVal)) (items : List PyVal) (tc hnp ec : PyVal)
    (hs : server level after = (200, mkCategoriesPage tc items hnp ec)) :
    fetch_categories_go server (fuel + 1) level after acc trace =
      if truthy tc then
        (if truthy hnp then
          fetch_categories_go server fuel level ec (acc ++ items)
            (trace ++ [(level, after)])
        else
          fetch_categories_go server fuel (level + 1) (.str "") (acc ++ items)
            (trace ++ [(level, after)]))
      else some (.ok (acc, trace ++ [(level, after)])) := by
  simp only [fetch_categories_go,
    categoriesFetchPage_mk server level after items tc hnp ec hs,
    categories_totalCount tc items hnp ec,
    categories_nodes tc items hnp ec,
    categories_hasNext tc items hnp ec,
    categories_endCursor tc items hnp ec]

/-- C1: in `fetch_product_categories`, a page with truthy `totalCount`
continues at the same level (cursor set to `endCursor`) when `hasNextPage`
is truthy and advances the level with a fresh empty cursor exactly when
`hasNextPage` is falsy; the loop returns exactly when a page reports a
falsy `totalCount`. In the concrete scenario (level 0: one page, 5 items,
`totalCount` 5, `hasNextPage` false; level 1: `totalCount` 0) the result is
level 0's five items in order and the trace shows level 1 probed exactly
once. -/
theorem C1_fetch_product_categories_levels :
    (∀ (server : Nat → PyVal → Nat × PyVal) (fuel level : Nat) (after : PyVal)
        (acc : List PyVal) (trace : List (Nat × PyVal)) (items : List PyVal)
        (tc hnp ec : PyVal),
      server level after = (200, mkCategoriesPage tc items hnp ec) →
      fetch_categories_go server (fuel + 1) level after acc trace =
        if truthy tc then
          (if truthy hnp then
            fetch_categories_go server fuel level ec (acc ++ items)
              (trace ++ [(level, after)])
          else
            fetch_categories_go server fuel (level + 1) (.str "") (acc ++ items)
              (trace ++ [(level, after)]))
        else some (.ok (acc, trace ++ [(level, after)]))) ∧
    (∀ (server : Nat → PyVal → Nat × PyVal) (i1 i2 i3 i4 i5 : PyVal)
        (ec0 hnp1 ec1 : PyVal),
      server 0 (.str "") =
        (200, mkCategoriesPage (.int 5) [i1, i2, i3, i4, i5] (.bool false) ec0) →
      server 1 (.str "") = (200, mkCategoriesPage (.int 0) [] hnp1 ec1) →
      fetch_product_categories server 2 =
        some (.ok ([i1, i2, i3, i4, i5], [(0, .str ""), (1, .str "")]))) := by
  constructor
  · intro server fuel level after acc trace items tc hnp ec hs
    exact fetch_categories_go_step server fuel level after acc trace items
      tc hnp ec hs
  · intro server i1 i2 i3 i4 i5 ec0 hnp1 ec1 h0 h1
    unfold fetch_product_categories
    rw [fetch_categories_go_step server 1 0 (.str "") [] []
      [i1, i2, i3, i4, i5] (.int 5) (.bool false) ec0 h0]
    simp only [show truthy (PyVal.int 5) = true from by decide,
      show truthy (PyVal.bool false) = false from by decide,
      if_true, Bool.false_eq_true, if_false, List.nil_append, Nat.zero_add]
    rw [fetch_categories_go_step server 0 1 (.str "") [i1, i2, i3, i4, i5]
      [(0, PyVal.str "")] [] (.int 0) hnp1 ec1 h1]
    simp [show truthy (PyVal.int 0) = false from by decide]

/-- A two-level demonstration server for the categories pager: level 0
holds five categories on one page, level 1 is empty. -/
def categoriesDemoServer : Nat → PyVal → Nat × PyVal := fun level _ =>
  match level with
  | 0 => (200, mkCategoriesPage (.int 5)
      [.int 10, .int 11, .int 12, .int 13, .int 14] (.bool false) PyVal.none)
  | _ => (200, mkCategoriesPage (.int 0) [] PyVal.none PyVal.none)

/-- Witness for C1 at the demonstration server. -/
theorem C1_fetch_product_categories_levels_witness :
    fetch_product_categories categoriesDemoServer 2 =
      some (.ok ([.int 10, .int 11, .int 12, .int 13, .int 14],
        [(0, .str ""), (1, .str "")])) :=
  C1_fetch_product_categories_levels.2 categoriesDemoServer
    (.int 10) (.int 11) (.int 12) (.int 13) (.int 14)
    PyVal.none PyVal.none PyVal.none rfl rfl

/-! ## Every returned payload went through `handle_errors` first -/

theorem bound_request_handled {α : Type} (status : Nat) (parsed : PyVal) (v : α)
    (ep : Option (List String)) (rest : PyVal → Except PyExc α)
    (h : (do
        let response ← graphql_request status parsed
        handle_errors response ep
        rest response) = .ok v) :
    handle_errors parsed ep = .ok () := by
  cases hg : graphql_request status parsed with
  | error e =>
    rw [hg] at h
    simp [Bind.bind, Except.bind] at h
  | ok r =>
    obtain ⟨-, hr⟩ := graphql_request_ok_dest status parsed r hg
    rw [hg] at h
    simp only [Bind.bind, Except.bind] at h
    cases hh : handle_errors r ep with
    | error e =>
      rw [hh] at h
      simp [Except.bind] at h
    | ok u =>
      cases u
      rw [← hr]
      exact hh

theorem warehousesFetchPage_handled (server : PyVal → Nat × PyVal)
    (after : PyVal) (x : List PyVal × PyVal × PyVal)
    (h : warehousesFetchPage server after = .ok x) :
    handle_errors (server after).2 Option.none = .ok () := by
  unfold warehousesFetchPage at h
  exact bound_request_handled (server after).1 (server after).2 x
    Option.none _ h

theorem fetch_warehouses_go_handled (server : PyVal → Nat × PyVal) :
    ∀ (fuel : Nat) (after : PyVal) (acc trace ws tr : List PyVal),
      fetch_warehouses_go server fuel after acc trace = some (.ok (ws, tr)) →
      (∀ c ∈ trace, handle_errors (server c).2 Option.none = .ok ()) →
      ∀ c ∈ tr, handle_errors (server c).2 Option.none = .ok () := by
  intro fuel
  induction fuel with
  | zero =>
    intro after acc trace ws tr h _
    simp [fetch_warehouses_go] at h
  | succ fuel ih =>
    intro after acc trace ws tr h htrace
    rw [fetch_warehouses_go] at h
    cases hp : warehousesFetchPage server after with
    | error e =>
      rw [hp] at h
      simp at h
    | ok page =>
      obtain ⟨nodes, hnp, ec⟩ := page
      have hafter : handle_errors (server after).2 Option.none = .ok () :=
        warehousesFetchPage_handled server after _ hp
      have htrace2 : ∀ c ∈ trace ++ [after],
          handle_errors (server c).2 Option.none = .ok () := by
        intro c hc
        rcases List.mem_append.mp hc with hc | hc
        · exact htrace c hc
        · rw [List.mem_singleton] at hc
          subst hc
          exact hafter
      rw [hp] at h
      by_cases ht : truthy hnp
      · simp only [ht, if_true] at h
        exact ih ec (acc ++ nodes) (trace ++ [after]) ws tr h htrace2
      · simp [ht] at h
        obtain ⟨-, h2⟩ := h
        intro c hc
        exact htrace2 c (h2 ▸ hc)

/-- C9: each wrapper hands its parsed response to `handle_errors` before
returning any payload: `update_shop_settings` and `create_product_media`
return a payload only if `handle_errors` accepted the response they used,
and every response `fetch_warehouses` consumed along its cursor trace was
accepted by `handle_errors`. -/
theorem C9_handle_errors_before_return :
    (∀ (status : Nat) (parsed v : PyVal),
      update_shop_settings status parsed = .ok v →
      handle_errors parsed (some shopSettingsPath) = .ok ()) ∧
    (∀ (file_path : String) (multipartStatus : Nat) (multipartParsed : PyVal)
        (jsonStatus : Nat) (jsonParsed : PyVal) (v : PyVal),
      create_product_media file_path multipartStatus multipartParsed
        jsonStatus jsonParsed = .ok v →
      handle_errors (if file_path ≠ "" then multipartParsed else jsonParsed)
        (some productMediaPath) = .ok ()) ∧
    (∀ (server : PyVal → Nat × PyVal) (fuel : Nat) (ws tr : List PyVal),
      fetch_warehouses server fuel = some (.ok (ws, tr)) →
      ∀ c ∈ tr, handle_errors (server c).2 Option.none = .ok ()) := by
  refine ⟨?_, ?_, ?_⟩
  · intro status parsed v h
    unfold update_shop_settings at h
    exact bound_request_handled status parsed v (some shopSettingsPath) _ h
  · intro file_path ms mp js jp v h
    unfold create_product_media graphql_multipart_request at h
    by_cases hfp : file_path ≠ ""
    · rw [if_pos hfp] at h
      rw [if_pos hfp]
      exact bound_request_handled ms mp v (some productMediaPath) _ h
    · rw [if_neg hfp] at h
      rw [if_neg hfp]
      exact bound_request_handled js jp v (some productMediaPath) _ h
  · intro server fuel ws tr h
    exact fetch_warehouses_go_handled server fuel (.str "") [] [] ws tr h
      (by intro c hc; simp at hc)

/-- A one-page warehouses server used by the C9 witness. -/
def warehousesSinglePageServer : PyVal → Nat × PyVal := fun _ =>
  (200, mkWarehousesPage [.int 1] (.bool false) PyVal.none)

/-- Witness for C9 at concrete successful calls. -/
theorem C9_handle_errors_before_return_witness :
    handle_errors
      (PyVal.dict [("data", PyVal.dict [("shopSettingsUpdate", PyVal.dict
        [("shop", PyVal.int 7), ("errors", PyVal.list [])])])])
      (some shopSettingsPath) = .ok () ∧
    handle_errors
      (if ("f.png" : String) ≠ "" then
        PyVal.dict [("data", PyVal.dict [("productMediaCreate", PyVal.dict
          [("media", PyVal.dict [("id", PyVal.str "M")]),
           ("errors", PyVal.list [])])])]
      else PyVal.none)
      (some productMediaPath) = .ok () ∧
    handle_errors (warehousesSinglePageServer (.str "")).2 Option.none = .ok () :=
  ⟨C9_handle_errors_before_return.1 200
      (PyVal.dict [("data", PyVal.dict [("shopSettingsUpdate", PyVal.dict
        [("shop", PyVal.int 7), ("errors", PyVal.list [])])])])
      (PyVal.int 7) rfl,
    C9_handle_errors_before_return.2.1 "f.png" 200
      (PyVal.dict [("data", PyVal.dict [("productMediaCreate", PyVal.dict
        [("media", PyVal.dict [("id", PyVal.str "M")]),
         ("errors", PyVal.list [])])])])
      0 PyVal.none (PyVal.str "M") rfl,
    C9_handle_errors_before_return.2.2 warehousesSinglePageServer 1
      [.int 1] [.str ""] rfl (.str "") (by simp)⟩

end SaleorGqlLoader
